import Mathlib

/-!
Verification of the dataset-construction pipeline of the thesis repository
(`src/dataset.py`): source cleaners, name reconciliation, geometry processing,
station aggregation and the dataset merge.  Tables are shallowly embedded as
Lean lists of rows; pandas cell values are exact rationals, with missing cells
as `Option` and float division modelled explicitly where its non-finite
results matter.
-/

namespace DatasetPipeline

/-! ## Name reconciliation

`municipality_name_mapping` itself lives in `src/utils.py`, which is not part
of the sources; the lookup discipline `mapping.get(name, name)` is taken from
`dataset.py` line 162.  The mapping is therefore a parameter everywhere. -/

/-- The canonicalisation step `municipality_name_mapping.get(original_name,
original_name)` from `load_and_process_geojson`: a known alias is replaced by
its canonical spelling, any other input is returned unchanged. -/
def canonicalize (m : List (String × String)) (x : String) : String :=
  match m.find? (fun p => p.1 = x) with
  | some p => p.2
  | none => x

/-- Modelled from the spec: `apply_name_mapping(df, col, mapping)` is defined
in the absent `src/utils.py`; per the spec (section 4.1) it applies
`canonicalize` to the join-key column of the table.  Here a table is a list of
rows paired with a key-extraction/update, so each caller instantiates it by
mapping `canonicalize` over its key field. -/
def applyNameMappingKeys (m : List (String × String)) (keys : List String) : List String :=
  keys.map (canonicalize m)

lemma canonicalize_of_find?_eq_some {m : List (String × String)} {x : String}
    {p : String × String} (h : m.find? (fun q => q.1 = x) = some p) :
    canonicalize m x = p.2 := by
  simp [canonicalize, h]

lemma canonicalize_of_find?_eq_none {m : List (String × String)} {x : String}
    (h : m.find? (fun q => q.1 = x) = none) :
    canonicalize m x = x := by
  simp [canonicalize, h]

/-- C8: name reconciliation is idempotent.  The concrete mapping is absent
from the sources; the spec describes it as mapping alternate spellings to
canonical names, so the hypothesis `hm` records that every value of the
mapping is itself canonical (a fixed point of `canonicalize`). -/
theorem canonicalize_idempotent (m : List (String × String))
    (hm : ∀ p ∈ m, canonicalize m p.2 = p.2) (x : String) :
    canonicalize m (canonicalize m x) = canonicalize m x := by
  rcases hfind : m.find? (fun q => q.1 = x) with _ | p
  · rw [canonicalize_of_find?_eq_none hfind]
    exact canonicalize_of_find?_eq_none hfind
  · rw [canonicalize_of_find?_eq_some hfind]
    exact hm p (List.mem_of_find?_eq_some hfind)

/-- Witness for C8 at a concrete one-entry mapping and a concrete alias. -/
theorem canonicalize_idempotent_witness :
    (∀ p ∈ [("The Hague", "Den Haag")],
        canonicalize [("The Hague", "Den Haag")] p.2 = p.2)
    ∧ canonicalize [("The Hague", "Den Haag")]
        (canonicalize [("The Hague", "Den Haag")] "The Hague")
      = canonicalize [("The Hague", "Den Haag")] "The Hague" := by
  refine ⟨by decide, canonicalize_idempotent _ (by decide) "The Hague"⟩

/-! ## Numeric coercion

`pd.to_numeric(col, errors='coerce')` on string cells: a decimal literal with
optional sign parses to its exact rational value, anything else becomes
missing (`none`). -/

/-- Accumulate a digit string into a natural number. -/
def digitsToNat (l : List Char) : ℕ :=
  l.foldl (fun a c => a * 10 + (c.toNat - 48)) 0

/-- Split a character list at every occurrence of the separator. -/
def splitOnChar (c : Char) : List Char → List (List Char)
  | [] => [[]]
  | x :: xs =>
    let r := splitOnChar c xs
    if x = c then [] :: r
    else
      match r with
      | [] => [[x]]
      | y :: ys => (x :: y) :: ys

/-- `pd.to_numeric(_, errors='coerce')` on a single string cell: an optional
sign followed by a decimal literal parses to its exact rational value, any
other string becomes missing. -/
def to_numeric (s : String) : Option ℚ :=
  let l := s.toList
  let (sign, body) : ℚ × List Char :=
    match l with
    | '-' :: rest => (-1, rest)
    | '+' :: rest => (1, rest)
    | _ => (1, l)
  match splitOnChar '.' body with
  | [ip] =>
      if 0 < ip.length ∧ ip.all Char.isDigit then
        some (sign * (digitsToNat ip : ℚ))
      else none
  | [ip, fp] =>
      if 0 < ip.length + fp.length ∧ (ip ++ fp).all Char.isDigit then
        some (sign * ((digitsToNat ip : ℚ)
          + (digitsToNat fp : ℚ) / (10 : ℚ) ^ fp.length))
      else none
  | _ => none

/-! ## Income cleaner (`clean_income_data`)

A raw income row, after `read_csv` and the column renames, is a municipality
name together with an optional raw cell (`none` models a NaN produced by the
CSV parse).  The static fallback table `missing_incomes` lives in the absent
`src/utils.py`, so it is a parameter. -/

/-- The regex replacement on the income column: `','` becomes `'.'` and all
whitespace is removed. -/
def normalize_income_cell (s : String) : String :=
  String.mk ((s.toList.filter (fun c => !c.isWhitespace)).map
    (fun c => if c = ',' then '.' else c))

/-- The per-row value pipeline of `clean_income_data`: coerce the normalised
cell to numeric, then fill a missing result from the fallback table keyed by
municipality name. -/
def incomeFill (fallback : String → Option ℚ) (mun : String)
    (cell : Option String) : Option ℚ :=
  match cell.bind (fun s => to_numeric (normalize_income_cell s)) with
  | some q => some q
  | none => fallback mun

/-- `clean_income_data`: normalise and coerce the income column, fill missing
values from the fallback table, then drop rows still missing. -/
def clean_income_data (fallback : String → Option ℚ)
    (rows : List (String × Option String)) : List (String × ℚ) :=
  rows.filterMap (fun r => (incomeFill fallback r.1 r.2).map (fun q => (r.1, q)))

/-- C7: a row whose cell fails numeric coercion is first filled from the
fallback table; each row whose filled value is present survives into the
cleaned table with that value, and a row is dropped exactly when it is still
missing after the fill. -/
theorem clean_income_data_fill (fallback : String → Option ℚ)
    (rows : List (String × Option String)) (mun : String) (cell : Option String)
    (q : ℚ) (hmem : (mun, cell) ∈ rows)
    (hfill : incomeFill fallback mun cell = some q) :
    (mun, q) ∈ clean_income_data fallback rows
    ∧ ∀ r ∈ clean_income_data fallback rows,
        ∃ c, (r.1, c) ∈ rows ∧ incomeFill fallback r.1 c = some r.2 := by
  constructor
  · exact List.mem_filterMap.2 ⟨(mun, cell), hmem, by simp [hfill]⟩
  · intro r hr
    rcases List.mem_filterMap.1 hr with ⟨s, hs, hmap⟩
    rcases Option.map_eq_some'.1 hmap with ⟨v, hv, hrv⟩
    exact ⟨s.2, by simpa [← hrv] using hs, by simp [← hrv, hv]⟩

/-- Witness for C7, the Utrecht scenario of the spec: a missing income cell
for "Utrecht" with fallback value 45.2 yields the row ("Utrecht", 45.2). -/
theorem clean_income_data_fill_witness :
    ("Utrecht", (452 / 10 : ℚ)) ∈ clean_income_data
      (fun n => if n = "Utrecht" then some (452 / 10) else none)
      [("Utrecht", none)] :=
  (clean_income_data_fill
    (fun n => if n = "Utrecht" then some (452 / 10) else none)
    [("Utrecht", none)] "Utrecht" none (452 / 10)
    (by decide) (by simp [incomeFill])).1

/-! ## Surface cleaner (`clean_surface_data`)

A raw surface row, after `read_csv`, the renames and the selection of the two
columns, is a pair of optional string cells (municipality, Totaal.1), `none`
modelling a NaN from the CSV parse.  The code drops missing rows first
(`dropna`), then discards the first remaining row (`data[1:]`), and only then
coerces `avg_surface` to numeric. -/

/-- The column selection of `clean_surface_data`: a row survives `dropna`
exactly when both selected cells are present. -/
def selectSurface (r : Option String × Option String) : Option (String × String) :=
  match r with
  | (some m, some s) => some (m, s)
  | _ => none

/-- `clean_surface_data`, mirroring the order of operations in the source:
select and `dropna`, slice off the first row, then coerce. -/
def clean_surface_data (rows : List (Option String × Option String)) :
    List (String × Option ℚ) :=
  ((rows.filterMap selectSurface).drop 1).map (fun r => (r.1, to_numeric r.2))

lemma selectSurface_eq_some {r : Option String × Option String}
    {p : String × String} (h : selectSurface r = some p) :
    r = (some p.1, some p.2) := by
  rcases r with ⟨m, s⟩
  rcases m with _ | m <;> rcases s with _ | s <;> simp [selectSurface] at h
  rw [← h]

/-- C4 counterexample: a cell that fails numeric coercion is not dropped; the
returned table contains a row whose `avg_surface` is missing. -/
theorem clean_surface_data_missing_row :
    ∃ r ∈ clean_surface_data
      [(some "eerste rij", some "1"), (some "Ameland", some "n.v.t.")],
      r.2 = none := by
  refine ⟨("Ameland", none), ?_, rfl⟩
  decide

/-- C4 amended: every `avg_surface` cell that fails numeric coercion becomes
missing rather than raising, but since the missing-row drop runs before the
coercion, such rows stay in the output; only rows missing in the raw parse
(and the first surviving row) are removed.  Every output value is the
coercion of a cell present in the raw parse. -/
theorem clean_surface_data_amended (rows : List (Option String × Option String)) :
    (clean_surface_data rows).length = (rows.filterMap selectSurface).length - 1
    ∧ ∀ r ∈ clean_surface_data rows,
        ∃ s, (some r.1, some s) ∈ rows ∧ r.2 = to_numeric s := by
  constructor
  · simp [clean_surface_data]
  · intro r hr
    rcases List.mem_map.1 hr with ⟨p, hp, hpr⟩
    have hpsel : p ∈ rows.filterMap selectSurface :=
      List.mem_of_mem_drop hp
    rcases List.mem_filterMap.1 hpsel with ⟨raw, hraw, hsel⟩
    refine ⟨p.2, ?_, ?_⟩
    · have := selectSurface_eq_some hsel
      rw [← hpr]
      simpa [this] using hraw
    · rw [← hpr]

/-- Witness for C4 amended at the concrete failing table. -/
theorem clean_surface_data_amended_witness :
    ∃ s, (some "Ameland", some s) ∈
        [(some "eerste rij", some "1"), (some "Ameland", some "n.v.t.")]
      ∧ (("Ameland", (none : Option ℚ))).2 = to_numeric s :=
  (clean_surface_data_amended
    [(some "eerste rij", some "1"), (some "Ameland", some "n.v.t.")]).2
    ("Ameland", none) (by decide)

/-! ## Merged-data processing (`process_merged_data`)

`data['m2_price'] = data['avg_price'] / data['avg_surface']` is float
division in pandas: it never raises, and a zero divisor silently yields a
non-finite value.  `FVal` models the result of one float division on exact
cell values. -/

/-- Result of an IEEE float division whose operands are exactly represented
rationals: finite quotient, signed infinity, or NaN for 0/0. -/
inductive FVal where
  | num : ℚ → FVal
  | inf : FVal
  | neginf : FVal
  | nan : FVal
deriving DecidableEq

/-- Float division as performed by the pandas column divide. -/
def floatDiv (p s : ℚ) : FVal :=
  if s = 0 then (if p = 0 then FVal.nan else if 0 < p then FVal.inf else FVal.neginf)
  else FVal.num (p / s)

/-- A row of the merged dataset: the two columns the derivation reads, plus
all remaining columns as an opaque association list. -/
structure MergedRow where
  municipality : String
  avg_price : ℚ
  avg_surface : ℚ
  rest : List (String × ℚ)
deriving DecidableEq

/-- A row after `process_merged_data`: the same columns plus `m2_price`. -/
structure ProcessedRow where
  municipality : String
  avg_price : ℚ
  avg_surface : ℚ
  rest : List (String × ℚ)
  m2_price : FVal
deriving DecidableEq

/-- Forget the derived column again. -/
def ProcessedRow.toMerged (r : ProcessedRow) : MergedRow :=
  ⟨r.municipality, r.avg_price, r.avg_surface, r.rest⟩

/-- `process_merged_data`: append the derived `m2_price` column. -/
def process_merged_data (rows : List MergedRow) : List ProcessedRow :=
  rows.map (fun r =>
    ⟨r.municipality, r.avg_price, r.avg_surface, r.rest,
      floatDiv r.avg_price r.avg_surface⟩)

/-- C3 counterexample: on a merged table containing a row with
`avg_surface = 0`, `process_merged_data` returns normally and that row
survives with `m2_price` equal to infinity — no explicit error is surfaced
and the zero-surface row is present in the output. -/
theorem process_merged_data_zero_surface :
    (process_merged_data [⟨"Vaals", 100, 0, []⟩]).length = 1
    ∧ ∃ r ∈ process_merged_data [⟨"Vaals", 100, 0, []⟩],
        r.avg_surface = 0 ∧ r.m2_price = FVal.inf := by
  exact ⟨rfl, ⟨"Vaals", 100, 0, [], FVal.inf⟩, by decide, rfl, rfl⟩

/-- C3 amended: `m2_price` is the float division of `avg_price` by
`avg_surface` for every row; no row is dropped, and a row with zero
`avg_surface` silently receives a non-finite value. -/
theorem process_merged_data_divzero (rows : List MergedRow) :
    (process_merged_data rows).length = rows.length
    ∧ ∀ r ∈ process_merged_data rows,
        r.m2_price = floatDiv r.avg_price r.avg_surface
        ∧ (r.avg_surface = 0 →
            r.m2_price = FVal.inf ∨ r.m2_price = FVal.neginf ∨ r.m2_price = FVal.nan) := by
  refine ⟨by simp [process_merged_data], ?_⟩
  intro r hr
  rcases List.mem_map.1 hr with ⟨s, _, hsr⟩
  subst hsr
  refine ⟨rfl, ?_⟩
  intro h0
  have h0' : s.avg_surface = 0 := h0
  show floatDiv s.avg_price s.avg_surface = FVal.inf
      ∨ floatDiv s.avg_price s.avg_surface = FVal.neginf
      ∨ floatDiv s.avg_price s.avg_surface = FVal.nan
  rcases lt_trichotomy s.avg_price 0 with hneg | hzero | hpos
  · right; left; simp [floatDiv, h0', hneg.ne, not_lt.2 hneg.le]
  · right; right; simp [floatDiv, h0', hzero]
  · left; simp [floatDiv, h0', hpos.ne', hpos]

/-- Witness for C3 amended at the zero-surface table. -/
theorem process_merged_data_divzero_witness :
    (⟨"Vaals", 100, 0, [], FVal.inf⟩ : ProcessedRow).m2_price
      = floatDiv (100 : ℚ) 0
    ∧ ((⟨"Vaals", 100, 0, [], FVal.inf⟩ : ProcessedRow).avg_surface = 0 →
        (⟨"Vaals", 100, 0, [], FVal.inf⟩ : ProcessedRow).m2_price = FVal.inf
        ∨ (⟨"Vaals", 100, 0, [], FVal.inf⟩ : ProcessedRow).m2_price = FVal.neginf
        ∨ (⟨"Vaals", 100, 0, [], FVal.inf⟩ : ProcessedRow).m2_price = FVal.nan) :=
  (process_merged_data_divzero [⟨"Vaals", 100, 0, []⟩]).2
    ⟨"Vaals", 100, 0, [], FVal.inf⟩ (by decide)

/-- C10: `process_merged_data` only appends the `m2_price` column — dropping
that column gives back exactly the input rows in order, so every
pre-existing column is unchanged, and the appended column is the float
quotient row by row. -/
theorem process_merged_data_frame (rows : List MergedRow) :
    (process_merged_data rows).map ProcessedRow.toMerged = rows
    ∧ (process_merged_data rows).map ProcessedRow.m2_price
        = rows.map (fun r => floatDiv r.avg_price r.avg_surface) := by
  constructor
  · have h : (ProcessedRow.toMerged ∘ fun r : MergedRow =>
        (⟨r.municipality, r.avg_price, r.avg_surface, r.rest,
          floatDiv r.avg_price r.avg_surface⟩ : ProcessedRow)) = id :=
      funext fun r => rfl
    rw [process_merged_data, List.map_map, h, List.map_id]
  · rw [process_merged_data, List.map_map]
    rfl

/-! ## Dataset merger (`merge_datasets`)

A table is a list of rows, each a canonical key with its payload of metric
cells.  `pd.merge(a, b, on='municipality', how='inner')` pairs every left row
with every right row carrying the same key, in left-major order. -/

/-- A per-municipality table: join key plus the remaining cells of the row. -/
abbrev Table := List (String × List ℚ)

/-- The keys column of a table. -/
def keys (t : Table) : List String := t.map Prod.fst

/-- `apply_name_mapping(data, 'municipality', municipality_name_mapping)`:
canonicalize the join-key column (modelled from the spec, section 4.1, as the
function body lives in the absent `src/utils.py`). -/
def applyNameMapping (m : List (String × String)) (t : Table) : Table :=
  t.map (fun r => (canonicalize m r.1, r.2))

/-- One pandas inner merge on the key column. -/
def pdInnerMerge (t1 t2 : Table) : Table :=
  t1.flatMap (fun r1 =>
    (t2.filter (fun r2 => r2.1 = r1.1)).map (fun r2 => (r1.1, r1.2 ++ r2.2)))

/-- `merge_datasets(*datasets)`: canonicalize every key column, then fold the
inner merge left-to-right starting from the first table. -/
def merge_datasets (m : List (String × String)) (t0 : Table) (ts : List Table) : Table :=
  (ts.map (applyNameMapping m)).foldl pdInnerMerge (applyNameMapping m t0)

lemma keys_applyNameMapping (m : List (String × String)) (t : Table) :
    keys (applyNameMapping m t) = (keys t).map (canonicalize m) := by
  simp [keys, applyNameMapping]

lemma length_applyNameMapping (m : List (String × String)) (t : Table) :
    (applyNameMapping m t).length = t.length := by
  simp [applyNameMapping]

lemma length_keys (t : Table) : (keys t).length = t.length := by
  simp [keys]

lemma keys_cons (r : String × List ℚ) (t : Table) :
    keys (r :: t) = r.1 :: keys t := rfl

lemma keys_append (t1 t2 : Table) : keys (t1 ++ t2) = keys t1 ++ keys t2 := by
  simp [keys]

lemma filter_key_eq_nil {t : Table} {k : String} (h : k ∉ keys t) :
    t.filter (fun r => r.1 = k) = [] := by
  refine List.filter_eq_nil_iff.2 (fun r hr => ?_)
  simp only [decide_eq_true_eq]
  intro hk
  exact h (hk ▸ List.mem_map_of_mem Prod.fst hr)

lemma filter_key_eq_single {t : Table} {k : String}
    (hnd : (keys t).Nodup) (h : k ∈ keys t) :
    ∃ v, t.filter (fun r => r.1 = k) = [(k, v)] := by
  induction t with
  | nil => simp [keys] at h
  | cons r t ih =>
    have hnd' : (keys t).Nodup := (List.nodup_cons.1 hnd).2
    have hr : r.1 ∉ keys t := (List.nodup_cons.1 hnd).1
    by_cases hk : r.1 = k
    · subst hk
      refine ⟨r.2, ?_⟩
      rw [List.filter_cons]
      simp [filter_key_eq_nil hr]
    · have hkt : k ∈ keys t := by
        rcases List.mem_cons.1 h with h' | h'
        · exact absurd h'.symm hk
        · exact h'
      rcases ih hnd' hkt with ⟨v, hv⟩
      refine ⟨v, ?_⟩
      rw [List.filter_cons, hv, if_neg]
      simp [hk]

lemma keys_pdInnerMerge (t1 t2 : Table) (h2 : (keys t2).Nodup) :
    keys (pdInnerMerge t1 t2)
      = (keys t1).filter (fun k => decide (k ∈ keys t2)) := by
  induction t1 with
  | nil => rfl
  | cons r1 t1 ih =>
    show keys ((t2.filter (fun r2 => r2.1 = r1.1)).map
        (fun r2 => (r1.1, r1.2 ++ r2.2)) ++ pdInnerMerge t1 t2) = _
    rw [keys_append, ih, keys_cons]
    simp only [List.filter_cons]
    by_cases hk : r1.1 ∈ keys t2
    · rcases filter_key_eq_single h2 hk with ⟨v, hv⟩
      rw [hv, decide_eq_true hk, if_pos rfl]
      rfl
    · rw [filter_key_eq_nil hk, if_neg]
      · rfl
      · simp [hk]

lemma foldl_pdInnerMerge_keys (ds : List Table) (acc : Table)
    (hacc : (keys acc).Nodup) (hds : ∀ d ∈ ds, (keys d).Nodup) :
    keys (ds.foldl pdInnerMerge acc)
      = (keys acc).filter (fun k => decide (∀ d ∈ ds, k ∈ keys d))
    ∧ (keys (ds.foldl pdInnerMerge acc)).Nodup := by
  induction ds generalizing acc with
  | nil =>
    refine ⟨?_, hacc⟩
    have htriv : List.filter
        (fun k => decide (∀ d ∈ ([] : List Table), k ∈ keys d)) (keys acc)
        = List.filter (fun _ => true) (keys acc) :=
      List.filter_congr (fun x _ => by simp)
    rw [List.foldl_nil, htriv, List.filter_true]
  | cons d ds ih =>
    have hd : (keys d).Nodup := hds d (List.mem_cons_self d ds)
    have hstep : keys (pdInnerMerge acc d)
        = (keys acc).filter (fun k => decide (k ∈ keys d)) :=
      keys_pdInnerMerge acc d hd
    have hstepnd : (keys (pdInnerMerge acc d)).Nodup := by
      rw [hstep]; exact hacc.filter _
    rcases ih (pdInnerMerge acc d) hstepnd
        (fun d' hd' => hds d' (List.mem_cons_of_mem d hd')) with ⟨hkeys, hnd⟩
    refine ⟨?_, hnd⟩
    rw [List.foldl_cons, hkeys, hstep, List.filter_filter]
    refine List.filter_congr (fun k _ => ?_)
    rw [← Bool.decide_and, decide_eq_decide]
    constructor
    · rintro ⟨hall, hmem⟩ d' hd'
      rcases List.mem_cons.1 hd' with rfl | hd''
      · exact hmem
      · exact hall d' hd''
    · intro hall
      exact ⟨fun d' hd' => hall d' (List.mem_cons_of_mem d hd'),
        hall d (List.mem_cons_self d ds)⟩

/-- C5: with unique keys after reconciliation, the merged output has a row
for a municipality exactly when its canonical key occurs in every input
table; the output keys are the common keys (as a sublist of the first
table's keys), and the row count is at most every input row count. -/
theorem merge_datasets_inner_join (m : List (String × String))
    (t0 : Table) (ts : List Table)
    (h : ∀ t ∈ t0 :: ts, (keys (applyNameMapping m t)).Nodup) :
    keys (merge_datasets m t0 ts)
      = (keys (applyNameMapping m t0)).filter
          (fun k => decide (∀ t ∈ ts, k ∈ keys (applyNameMapping m t)))
    ∧ (∀ k, k ∈ keys (merge_datasets m t0 ts)
        ↔ ∀ t ∈ t0 :: ts, k ∈ keys (applyNameMapping m t))
    ∧ ∀ t ∈ t0 :: ts, (merge_datasets m t0 ts).length ≤ t.length := by
  have h0 : (keys (applyNameMapping m t0)).Nodup :=
    h t0 (List.mem_cons_self t0 ts)
  have hds : ∀ d ∈ ts.map (applyNameMapping m), (keys d).Nodup := by
    intro d hd
    rcases List.mem_map.1 hd with ⟨t, ht, rfl⟩
    exact h t (List.mem_cons_of_mem t0 ht)
  rcases foldl_pdInnerMerge_keys (ts.map (applyNameMapping m))
      (applyNameMapping m t0) h0 hds with ⟨hkeys, hnd⟩
  have hkeys' : keys (merge_datasets m t0 ts)
      = (keys (applyNameMapping m t0)).filter
          (fun k => decide (∀ t ∈ ts, k ∈ keys (applyNameMapping m t))) := by
    rw [merge_datasets, hkeys]
    refine List.filter_congr (fun k _ => ?_)
    simp only [decide_eq_decide]
    constructor
    · intro hall t ht
      exact hall (applyNameMapping m t) (List.mem_map_of_mem _ ht)
    · intro hall d hd
      rcases List.mem_map.1 hd with ⟨t, ht, rfl⟩
      exact hall t ht
  have hmem : ∀ k, k ∈ keys (merge_datasets m t0 ts)
      ↔ ∀ t ∈ t0 :: ts, k ∈ keys (applyNameMapping m t) := by
    intro k
    rw [hkeys', List.mem_filter]
    simp only [decide_eq_true_eq, List.mem_cons]
    constructor
    · rintro ⟨hk0, hkrest⟩ t (rfl | ht)
      · exact hk0
      · exact hkrest t ht
    · intro hall
      exact ⟨hall t0 (Or.inl rfl), fun t ht => hall t (Or.inr ht)⟩
  refine ⟨hkeys', hmem, ?_⟩
  intro t ht
  have hlen : (merge_datasets m t0 ts).length
      = (keys (merge_datasets m t0 ts)).length := (length_keys _).symm
  rcases List.mem_cons.1 ht with rfl | ht'
  · rw [hlen, hkeys']
    calc ((keys (applyNameMapping m t)).filter _).length
        ≤ (keys (applyNameMapping m t)).length := List.length_filter_le _ _
      _ = t.length := by rw [length_keys, length_applyNameMapping]
  · have hsub : keys (merge_datasets m t0 ts) ⊆ keys (applyNameMapping m t) := by
      intro k hk
      exact (hmem k).1 hk t (List.mem_cons_of_mem t0 ht')
    have hnd' : (keys (merge_datasets m t0 ts)).Nodup := by
      rw [merge_datasets]; exact hnd
    calc (merge_datasets m t0 ts).length
        = (keys (merge_datasets m t0 ts)).length := hlen
      _ ≤ (keys (applyNameMapping m t)).length :=
          (hnd'.subperm hsub).length_le
      _ = t.length := by rw [length_keys, length_applyNameMapping]

/-- A concrete first table for the C5 witness. -/
def demoPriceTable : Table := [("Ameland", [1]), ("Borsele", [2])]

/-- A concrete second table for the C5 witness. -/
def demoSurfaceTable : Table := [("Borsele", [3]), ("Coevorden", [4])]

/-- Witness for C5 at two concrete two-row tables sharing one key. -/
theorem merge_datasets_inner_join_witness :
    (∀ t ∈ [demoPriceTable, demoSurfaceTable],
      (keys (applyNameMapping [] t)).Nodup)
    ∧ (keys (merge_datasets [] demoPriceTable [demoSurfaceTable])
        = (keys (applyNameMapping [] demoPriceTable)).filter
            (fun k => decide (∀ t ∈ [demoSurfaceTable],
              k ∈ keys (applyNameMapping [] t)))
      ∧ (∀ k, k ∈ keys (merge_datasets [] demoPriceTable [demoSurfaceTable])
          ↔ ∀ t ∈ [demoPriceTable, demoSurfaceTable],
            k ∈ keys (applyNameMapping [] t))
      ∧ ∀ t ∈ [demoPriceTable, demoSurfaceTable],
        (merge_datasets [] demoPriceTable [demoSurfaceTable]).length ≤ t.length) :=
  ⟨by decide,
    merge_datasets_inner_join [] demoPriceTable [demoSurfaceTable] (by decide)⟩

/-! ## Station aggregator (`count_stations_per_municipality`)

A station record carries a municipality, a category and a traffic count.
The groupby aggregates are modelled as association lists keyed by the
distinct municipalities of the station data (first-occurrence order stands
in for the sort order of pandas groupby, which none of the properties
depend on), and the three left joins onto the deduplicated reference list
with `fillna(0)` become defaulted lookups. -/

/-- One row of the stations CSV. -/
structure Station where
  municipality : String
  type : String
  traffic_count : ℤ
deriving DecidableEq

/-- Deduplication keeping first occurrences, as pandas `drop_duplicates`. -/
def dedupFirstAux (seen : List String) : List String → List String
  | [] => []
  | x :: xs =>
    if x ∈ seen then dedupFirstAux seen xs
    else x :: dedupFirstAux (x :: seen) xs

/-- Deduplication keeping first occurrences, as pandas `drop_duplicates`. -/
def dedupFirst (l : List String) : List String := dedupFirstAux [] l

lemma mem_dedupFirstAux (l : List String) (seen : List String) (x : String) :
    x ∈ dedupFirstAux seen l ↔ x ∈ l ∧ x ∉ seen := by
  induction l generalizing seen with
  | nil => simp [dedupFirstAux]
  | cons y ys ih =>
    by_cases hy : y ∈ seen
    · rw [dedupFirstAux, if_pos hy, ih]
      constructor
      · rintro ⟨hmem, hns⟩
        exact ⟨List.mem_cons_of_mem y hmem, hns⟩
      · rintro ⟨hmem, hns⟩
        rcases List.mem_cons.1 hmem with rfl | hmem'
        · exact absurd hy hns
        · exact ⟨hmem', hns⟩
    · rw [dedupFirstAux, if_neg hy]
      constructor
      · intro hmem
        rcases List.mem_cons.1 hmem with rfl | hmem'
        · exact ⟨List.mem_cons_self x ys, hy⟩
        · rcases (ih (y :: seen)).1 hmem' with ⟨hmem'', hns⟩
          exact ⟨List.mem_cons_of_mem y hmem'',
            fun hx => hns (List.mem_cons_of_mem y hx)⟩
      · rintro ⟨hmem, hns⟩
        rcases List.mem_cons.1 hmem with rfl | hmem'
        · exact List.mem_cons_self x _
        · by_cases hxy : x = y
          · subst hxy
            exact List.mem_cons_self x _
          · exact List.mem_cons_of_mem y ((ih (y :: seen)).2
              ⟨hmem', by simp [hxy, hns]⟩)

lemma mem_dedupFirst (l : List String) (x : String) :
    x ∈ dedupFirst l ↔ x ∈ l := by
  rw [dedupFirst, mem_dedupFirstAux]
  simp

lemma nodup_dedupFirstAux (l : List String) (seen : List String) :
    (dedupFirstAux seen l).Nodup := by
  induction l generalizing seen with
  | nil => exact List.nodup_nil
  | cons y ys ih =>
    by_cases hy : y ∈ seen
    · rw [dedupFirstAux, if_pos hy]
      exact ih seen
    · rw [dedupFirstAux, if_neg hy]
      refine List.nodup_cons.2 ⟨?_, ih (y :: seen)⟩
      intro hmem
      exact ((mem_dedupFirstAux ys (y :: seen) y).1 hmem).2
        (List.mem_cons_self y seen)

lemma nodup_dedupFirst (l : List String) : (dedupFirst l).Nodup :=
  nodup_dedupFirstAux l []

/-- `apply_name_mapping` on the stations table (modelled from the spec, as
for the merger): canonicalize the municipality field of one record. -/
def canonStation (m : List (String × String)) (s : Station) : Station :=
  ⟨canonicalize m s.municipality, s.type, s.traffic_count⟩

/-- `station_df.groupby('municipality').size()`. -/
def station_count_tbl (st : List Station) : List (String × ℕ) :=
  (dedupFirst (st.map Station.municipality)).map
    (fun k => (k, (st.filter (fun s => s.municipality = k)).length))

/-- `station_df.groupby(['municipality','type']).size().unstack(fill_value=0)`:
one column per category observed anywhere in the data, zero-filled. -/
def station_type_count_tbl (st : List Station) :
    List (String × List (String × ℕ)) :=
  (dedupFirst (st.map Station.municipality)).map
    (fun k => (k, (dedupFirst (st.map Station.type)).map
      (fun t => (t, (st.filter
        (fun s => s.municipality = k ∧ s.type = t)).length))))

/-- `station_df.groupby('municipality')['traffic_count'].sum()`. -/
def traffic_sum_tbl (st : List Station) : List (String × ℤ) :=
  (dedupFirst (st.map Station.municipality)).map
    (fun k => (k, ((st.filter (fun s => s.municipality = k)).map
      Station.traffic_count).sum))

/-- Defaulted association-list lookup: the left join on one key followed by
`fillna` with the given default. -/
def lookupD {α : Type} (tbl : List (String × α)) (k : String) (d : α) : α :=
  match tbl.find? (fun p => p.1 = k) with
  | some p => p.2
  | none => d

/-- One output row of the station aggregator. -/
structure StationRow where
  municipality : String
  station_count : ℕ
  type_counts : List (String × ℕ)
  total_traffic : ℤ
deriving DecidableEq

/-- `count_stations_per_municipality`: canonicalize both tables, deduplicate
the reference list, build the three groupby aggregates, and left-join them
onto the reference list with absent values filled by zero. -/
def count_stations_per_municipality (m : List (String × String))
    (stations : List Station) (ref : List String) : List StationRow :=
  let st := stations.map (canonStation m)
  let muns := dedupFirst (ref.map (canonicalize m))
  let types := dedupFirst (st.map Station.type)
  muns.map (fun r =>
    ⟨r, lookupD (station_count_tbl st) r 0,
      lookupD (station_type_count_tbl st) r (types.map (fun t => (t, 0))),
      lookupD (traffic_sum_tbl st) r 0⟩)

lemma lookupD_map_self {α : Type} (ks : List String) (f : String → α)
    (k : String) (d : α) :
    lookupD (ks.map (fun x => (x, f x))) k d = if k ∈ ks then f k else d := by
  induction ks with
  | nil => simp [lookupD]
  | cons a ks ih =>
    by_cases hak : a = k
    · subst hak
      simp [lookupD, List.find?]
    · rw [List.map_cons]
      show lookupD ((a, f a) :: ks.map (fun x => (x, f x))) k d = _
      rw [lookupD, List.find?]
      have : (decide (a = k)) = false := by simp [hak]
      rw [this]
      show lookupD (ks.map (fun x => (x, f x))) k d = _
      rw [ih]
      by_cases hk : k ∈ ks
      · simp [hk, hak]
      · simp [hk, hak, Ne.symm hak]

lemma filter_municipality_eq_nil {st : List Station} {k : String}
    (h : k ∉ st.map Station.municipality) :
    st.filter (fun s => s.municipality = k) = [] := by
  refine List.filter_eq_nil_iff.2 (fun s hs => ?_)
  simp only [decide_eq_true_eq]
  intro hk
  exact h (hk ▸ List.mem_map_of_mem Station.municipality hs)

lemma filter_municipality_type_eq_nil {st : List Station} {k t : String}
    (h : k ∉ st.map Station.municipality) :
    st.filter (fun s => s.municipality = k ∧ s.type = t) = [] := by
  refine List.filter_eq_nil_iff.2 (fun s hs => ?_)
  simp only [decide_eq_true_eq]
  rintro ⟨hk, -⟩
  exact h (hk ▸ List.mem_map_of_mem Station.municipality hs)

/-- C6: the aggregator output has exactly one row per municipality of the
deduplicated, canonicalized reference list (in order, without duplicates);
each row's `station_count` is the number of station records of that
municipality, each per-type count is the number of its records of that type
(with a column for every category observed anywhere, zero when the
municipality lacks it), `total_traffic` is the sum of its traffic counts and
is non-negative when all input traffic counts are, and a municipality with
no station records gets all-zero values. -/
theorem count_stations_per_municipality_spec (m : List (String × String))
    (stations : List Station) (ref : List String)
    (h : ∀ s ∈ stations, 0 ≤ s.traffic_count) :
    (count_stations_per_municipality m stations ref).map StationRow.municipality
      = dedupFirst (ref.map (canonicalize m))
    ∧ ((count_stations_per_municipality m stations ref).map
        StationRow.municipality).Nodup
    ∧ ∀ row ∈ count_stations_per_municipality m stations ref,
        row.station_count = ((stations.map (canonStation m)).filter
          (fun s => s.municipality = row.municipality)).length
        ∧ row.total_traffic = (((stations.map (canonStation m)).filter
            (fun s => s.municipality = row.municipality)).map
              Station.traffic_count).sum
        ∧ 0 ≤ row.total_traffic
        ∧ row.type_counts.map Prod.fst
            = dedupFirst ((stations.map (canonStation m)).map Station.type)
        ∧ (∀ p ∈ row.type_counts,
            p.2 = ((stations.map (canonStation m)).filter
              (fun s => s.municipality = row.municipality ∧ s.type = p.1)).length)
        ∧ ((stations.map (canonStation m)).filter
              (fun s => s.municipality = row.municipality) = [] →
            row.station_count = 0 ∧ row.total_traffic = 0
            ∧ ∀ p ∈ row.type_counts, p.2 = 0) := by
  set st := stations.map (canonStation m) with hst
  have hmap : (count_stations_per_municipality m stations ref).map
      StationRow.municipality = dedupFirst (ref.map (canonicalize m)) := by
    rw [count_stations_per_municipality, List.map_map]
    exact List.map_id _
  refine ⟨hmap, by rw [hmap]; exact nodup_dedupFirst _, ?_⟩
  intro row hrow
  rcases List.mem_map.1 hrow with ⟨r, hr, hrrow⟩
  have hcount : row.station_count
      = (st.filter (fun s => s.municipality = row.municipality)).length := by
    rw [← hrrow]
    show lookupD (station_count_tbl st) r 0 = _
    rw [station_count_tbl, lookupD_map_self]
    by_cases hkr : r ∈ dedupFirst (st.map Station.municipality)
    · rw [if_pos hkr]
    · rw [if_neg hkr, filter_municipality_eq_nil
        (fun hmem => hkr ((mem_dedupFirst _ _).2 hmem))]
      rfl
  have htraffic : row.total_traffic
      = ((st.filter (fun s => s.municipality = row.municipality)).map
          Station.traffic_count).sum := by
    rw [← hrrow]
    show lookupD (traffic_sum_tbl st) r 0 = _
    rw [traffic_sum_tbl, lookupD_map_self]
    by_cases hkr : r ∈ dedupFirst (st.map Station.municipality)
    · rw [if_pos hkr]
    · rw [if_neg hkr, filter_municipality_eq_nil
        (fun hmem => hkr ((mem_dedupFirst _ _).2 hmem))]
      rfl
  have htypes : row.type_counts
      = (dedupFirst (st.map Station.type)).map
          (fun t => (t, (st.filter (fun s =>
            s.municipality = row.municipality ∧ s.type = t)).length)) := by
    rw [← hrrow]
    show lookupD (station_type_count_tbl st) r
        ((dedupFirst (st.map Station.type)).map (fun t => (t, 0))) = _
    rw [station_type_count_tbl, lookupD_map_self]
    by_cases hkr : r ∈ dedupFirst (st.map Station.municipality)
    · rw [if_pos hkr]
    · rw [if_neg hkr]
      refine List.map_congr_left (fun t _ => ?_)
      rw [filter_municipality_type_eq_nil
        (fun hmem => hkr ((mem_dedupFirst _ _).2 hmem))]
      rfl
  have hnonneg : 0 ≤ row.total_traffic := by
    rw [htraffic]
    refine List.sum_nonneg (fun x hx => ?_)
    rcases List.mem_map.1 hx with ⟨s, hs, hxs⟩
    have hs' : s ∈ st := List.mem_of_mem_filter hs
    rcases List.mem_map.1 hs' with ⟨s0, hs0, hss0⟩
    rw [← hxs, ← hss0]
    exact h s0 hs0
  refine ⟨hcount, htraffic, hnonneg, ?_, ?_, ?_⟩
  · rw [htypes, List.map_map]
    exact List.map_id _
  · intro p hp
    rw [htypes] at hp
    rcases List.mem_map.1 hp with ⟨t, _, hpt⟩
    rw [← hpt]
  · intro hempty
    refine ⟨by rw [hcount, hempty]; rfl, by rw [htraffic, hempty]; rfl, ?_⟩
    intro p hp
    rw [htypes] at hp
    rcases List.mem_map.1 hp with ⟨t, _, hpt⟩
    have hsub : st.filter (fun s =>
        s.municipality = row.municipality ∧ s.type = t) = [] := by
      refine List.filter_eq_nil_iff.2 (fun s hs => ?_)
      simp only [decide_eq_true_eq]
      rintro ⟨hk, -⟩
      have : s ∈ st.filter (fun s => s.municipality = row.municipality) :=
        List.mem_filter.2 ⟨hs, by simp [hk]⟩
      rw [hempty] at this
      exact absurd this (List.not_mem_nil s)
    rw [← hpt, hsub]
    rfl

/-- The station records of the spec's aggregation scenario. -/
def demoStations : List Station :=
  [⟨"Meppel", "A", 10⟩, ⟨"Meppel", "A", 20⟩, ⟨"Meppel", "B", 5⟩]

/-- Witness for C6 at the spec's scenario: three records of types A, A, B
with traffic 10, 20, 5 in one municipality, plus a station-less municipality
in the reference list. -/
theorem count_stations_per_municipality_spec_witness :
    (∀ s ∈ demoStations, 0 ≤ s.traffic_count)
    ∧ ((count_stations_per_municipality [] demoStations ["Meppel", "Noordoostpolder"]).map
          StationRow.municipality
        = dedupFirst (["Meppel", "Noordoostpolder"].map (canonicalize []))
      ∧ ((count_stations_per_municipality [] demoStations
          ["Meppel", "Noordoostpolder"]).map StationRow.municipality).Nodup
      ∧ ∀ row ∈ count_stations_per_municipality [] demoStations
          ["Meppel", "Noordoostpolder"],
          row.station_count = ((demoStations.map (canonStation [])).filter
            (fun s => s.municipality = row.municipality)).length
          ∧ row.total_traffic = (((demoStations.map (canonStation [])).filter
              (fun s => s.municipality = row.municipality)).map
                Station.traffic_count).sum
          ∧ 0 ≤ row.total_traffic
          ∧ row.type_counts.map Prod.fst
              = dedupFirst ((demoStations.map (canonStation [])).map Station.type)
          ∧ (∀ p ∈ row.type_counts,
              p.2 = ((demoStations.map (canonStation [])).filter
                (fun s => s.municipality = row.municipality
                  ∧ s.type = p.1)).length)
          ∧ ((demoStations.map (canonStation [])).filter
                (fun s => s.municipality = row.municipality) = [] →
              row.station_count = 0 ∧ row.total_traffic = 0
              ∧ ∀ p ∈ row.type_counts, p.2 = 0)) :=
  ⟨by decide,
    count_stations_per_municipality_spec [] demoStations
      ["Meppel", "Noordoostpolder"] (by decide)⟩

/-- The spec scenario evaluated concretely: `station_count=3`, `A_count=2`,
`B_count=1`, `total_traffic=35`, and the station-less municipality all-zero. -/
example :
    count_stations_per_municipality [] demoStations ["Meppel", "Noordoostpolder"]
      = [⟨"Meppel", 3, [("A", 2), ("B", 1)], 35⟩,
         ⟨"Noordoostpolder", 0, [("A", 0), ("B", 0)], 0⟩] := by
  decide

/-! ## Geometry processor

`calculate_centroid_lat_lon` first takes `shapely_geometry.centroid` — the
planar (surveyor-formula) centroid of the raw coordinates, which for
EPSG:4326 input is the naive geographic-coordinate centroid — and only then
pushes that single point through EPSG:3857 and back.  Real-valued arithmetic
models the float computations; polygon rings are lists of (lon, lat)
vertices with exact rational coordinates, closed (last vertex equals the
first), as in GeoJSON. -/

/-- The cross term of one polygon edge in the surveyor centroid formula. -/
def ringCross (p q : ℚ × ℚ) : ℚ := p.1 * q.2 - q.1 * p.2

/-- `shapely_geometry.centroid` for a polygon ring: the area-weighted planar
centroid of the coordinates as given.  `none` models the exception path
(empty or degenerate geometry, whose centroid has no coordinates). -/
def shapelyCentroid (ring : List (ℚ × ℚ)) : Option (ℚ × ℚ) :=
  let pairs := ring.zip ring.tail
  let a2 := (pairs.map (fun pq => ringCross pq.1 pq.2)).sum
  if a2 = 0 then none
  else some
    ((pairs.map (fun pq => (pq.1.1 + pq.2.1) * ringCross pq.1 pq.2)).sum / (3 * a2),
     (pairs.map (fun pq => (pq.1.2 + pq.2.2) * ringCross pq.1 pq.2)).sum / (3 * a2))

/-- The sphere radius of EPSG:3857, in meters. -/
noncomputable def mercR : ℝ := 6378137

/-- EPSG:4326 to EPSG:3857, x component (from longitude in degrees). -/
noncomputable def mercX (lon : ℝ) : ℝ := mercR * (lon * Real.pi / 180)

/-- EPSG:4326 to EPSG:3857, y component (from latitude in degrees). -/
noncomputable def mercY (lat : ℝ) : ℝ :=
  mercR * Real.log (Real.tan (Real.pi / 4 + lat * Real.pi / 360))

/-- EPSG:3857 back to EPSG:4326, longitude in degrees. -/
noncomputable def invMercLon (x : ℝ) : ℝ := x / mercR * 180 / Real.pi

/-- EPSG:3857 back to EPSG:4326, latitude in degrees. -/
noncomputable def invMercLat (y : ℝ) : ℝ :=
  (2 * Real.arctan (Real.exp (y / mercR)) - Real.pi / 2) * 180 / Real.pi

/-- `calculate_centroid_lat_lon`: take the shapely centroid of the raw
geometry, transform that single point to EPSG:3857 and back to EPSG:4326,
and return it as (latitude, longitude); `none` models the caught exception
returning `(None, None)`. -/
noncomputable def calculate_centroid_lat_lon (ring : List (ℚ × ℚ)) :
    Option (ℝ × ℝ) :=
  match shapelyCentroid ring with
  | none => none
  | some c => some (invMercLat (mercY (c.2 : ℝ)), invMercLon (mercX (c.1 : ℝ)))

lemma mercR_ne_zero : mercR ≠ 0 := by
  rw [mercR]; norm_num

lemma invMercLon_mercX (lon : ℝ) : invMercLon (mercX lon) = lon := by
  rw [invMercLon, mercX]
  field_simp [mercR_ne_zero, Real.pi_ne_zero]
  ring

lemma invMercLat_mercY (lat : ℝ) (h1 : -90 < lat) (h2 : lat < 90) :
    invMercLat (mercY lat) = lat := by
  rw [invMercLat, mercY, mul_div_cancel_left₀ _ mercR_ne_zero]
  have hπ := Real.pi_pos
  have hθpos : 0 < Real.pi / 4 + lat * Real.pi / 360 := by
    nlinarith [mul_pos (by linarith : (0:ℝ) < lat + 90) hπ]
  have hθlt : Real.pi / 4 + lat * Real.pi / 360 < Real.pi / 2 := by
    nlinarith [mul_pos (by linarith : (0:ℝ) < 90 - lat) hπ]
  rw [Real.exp_log (Real.tan_pos_of_pos_of_lt_pi_div_two hθpos hθlt),
    Real.arctan_tan (by linarith) hθlt]
  field_simp
  ring

/-- C1 divergence: whenever the shapely centroid exists and its latitude is
strictly inside the Web-Mercator domain, `calculate_centroid_lat_lon`
returns exactly that centroid — the naive centroid taken directly in
geographic coordinates.  The projection pair is applied only to the already
computed centroid point, so it cancels; the geometry is never projected
before the centroid is taken. -/
theorem calculate_centroid_is_naive (ring : List (ℚ × ℚ)) (cx cy : ℚ)
    (hc : shapelyCentroid ring = some (cx, cy))
    (h1 : -90 < (cy : ℝ)) (h2 : (cy : ℝ) < 90) :
    calculate_centroid_lat_lon ring = some ((cy : ℝ), (cx : ℝ)) := by
  rw [calculate_centroid_lat_lon, hc]
  show some (invMercLat (mercY (cy : ℝ)), invMercLon (mercX (cx : ℝ))) = _
  rw [invMercLat_mercY _ h1 h2, invMercLon_mercX]

/-- A concrete closed square ring over the Netherlands (lon, lat). -/
def demoRing : List (ℚ × ℚ) := [(4, 52), (5, 52), (5, 53), (4, 53), (4, 52)]

/-- Witness for C1 at the concrete square ring: the code's output is the
naive geographic centroid (4.5, 52.5), reported as (lat, lon). -/
theorem calculate_centroid_is_naive_witness :
    shapelyCentroid demoRing = some (9/2, 105/2)
    ∧ calculate_centroid_lat_lon demoRing
        = some (((105/2 : ℚ) : ℝ), ((9/2 : ℚ) : ℝ)) :=
  ⟨by norm_num [shapelyCentroid, demoRing, ringCross],
    calculate_centroid_is_naive demoRing (9/2) (105/2)
      (by norm_num [shapelyCentroid, demoRing, ringCross])
      (by norm_num) (by norm_num)⟩

/-! ## Haversine distance -/

/-- `math.radians`. -/
noncomputable def radians (d : ℝ) : ℝ := d * Real.pi / 180

/-- `math.atan2`. -/
noncomputable def atan2 (y x : ℝ) : ℝ :=
  if 0 < x then Real.arctan (y / x)
  else if x < 0 ∧ 0 ≤ y then Real.arctan (y / x) + Real.pi
  else if x < 0 then Real.arctan (y / x) - Real.pi
  else if 0 < y then Real.pi / 2
  else if y < 0 then -(Real.pi / 2)
  else 0

/-- The haversine great-circle distance of `dataset.py`, in kilometers. -/
noncomputable def haversine (lat1 lon1 lat2 lon2 : ℝ) : ℝ :=
  let phi1 := radians lat1
  let phi2 := radians lat2
  let delta_phi := radians (lat2 - lat1)
  let delta_lambda := radians (lon2 - lon1)
  let a := Real.sin (delta_phi / 2) ^ 2
    + Real.cos phi1 * Real.cos phi2 * Real.sin (delta_lambda / 2) ^ 2
  let c := 2 * atan2 (Real.sqrt a) (Real.sqrt (1 - a))
  6371 * c

/-- C9: the haversine distance is symmetric in its two points, and the
distance from any point to itself is exactly zero (so in particular within
any floating tolerance). -/
theorem haversine_symm_and_self_zero :
    (∀ lat1 lon1 lat2 lon2 : ℝ,
      haversine lat1 lon1 lat2 lon2 = haversine lat2 lon2 lat1 lon1)
    ∧ ∀ lat lon : ℝ, haversine lat lon lat lon = 0 := by
  constructor
  · intro lat1 lon1 lat2 lon2
    simp only [haversine, radians]
    have h1 : (lat2 - lat1) * Real.pi / 180 / 2
        = -((lat1 - lat2) * Real.pi / 180 / 2) := by ring
    have h2 : (lon2 - lon1) * Real.pi / 180 / 2
        = -((lon1 - lon2) * Real.pi / 180 / 2) := by ring
    rw [h1, h2, Real.sin_neg, Real.sin_neg, neg_sq, neg_sq,
      mul_comm (Real.cos (lat1 * Real.pi / 180)) (Real.cos (lat2 * Real.pi / 180))]
  · intro lat lon
    simp [haversine, radians, atan2, zero_lt_one]

/-! ## GeoJSON processing (`load_and_process_geojson`)

A GeoJSON feature is its `statnaam` property and its polygon geometry.  For
each feature the code canonicalizes the name, computes the centroid and
unconditionally calls `haversine` on the result; when the centroid is absent
the call `math.radians(None)` raises a `TypeError` that nothing catches, so
the whole loop aborts — modelled by the `Option`-monadic traversal returning
`none`. -/

/-- One feature of the GeoJSON `FeatureCollection`. -/
structure GeoFeature where
  statnaam : String
  geometry : List (ℚ × ℚ)

/-- `load_and_process_geojson`: per feature, the reconciled name paired with
the haversine distance from its centroid to the Schiphol reference point
(52.3158, 4.7480); `none` models the uncaught `TypeError` raised when any
feature's centroid is absent. -/
noncomputable def load_and_process_geojson (m : List (String × String))
    (features : List GeoFeature) : Option (List (String × ℝ)) :=
  features.mapM (fun f =>
    (calculate_centroid_lat_lon f.geometry).map (fun c =>
      (canonicalize m f.statnaam,
        haversine c.1 c.2 (523158 / 10000) (4748 / 1000))))

/-- C2 divergence: a collection holding one feature with a degenerate
(empty) geometry makes `load_and_process_geojson` fail as a whole — it
returns no table at all, rather than excluding that feature and keeping the
well-formed one that follows it. -/
theorem load_and_process_geojson_abort :
    load_and_process_geojson []
      [⟨"Ameland", []⟩, ⟨"Borsele", demoRing⟩] = none := rfl

end DatasetPipeline
